import Mathlib

/-
Verification development for the mopidy-rfid repository.

Shallow embedding of the core subsystems described in spec.md:
the RFID reader loop (src/mopidy_rfid/rfid_manager.py), the LED
manager (src/mopidy_rfid/led_manager.py), the mappings store
(src/mopidy_rfid/mappings_db.py) and the progress updater of the
frontend (src/mopidy_rfid/frontend.py).

Python floats are modelled as rationals; Python round (half to even)
is modelled by pyRound.
-/

/-- Python round: round half to even, as used by `int(round(x))` in
led_manager.remaining_progress and frontend progress computations.
Stated with Rat.floor so that it evaluates by kernel reduction. -/
def pyRound (q : ℚ) : ℤ :=
  if q - (q.floor : ℚ) < 1/2 then q.floor
  else if 1/2 < q - (q.floor : ℚ) then q.floor + 1
  else if 2 ∣ q.floor then q.floor else q.floor + 1

/-- Rat.floor agrees with the floor of the FloorRing instance. -/
lemma ratFloor_eq_floor (q : ℚ) : q.floor = ⌊q⌋ := by
  rw [Rat.floor_def', Rat.floor_def]

/-- pyRound written with the FloorRing floor. -/
lemma pyRound_def_floor (q : ℚ) : pyRound q =
    if q - (⌊q⌋ : ℚ) < 1/2 then ⌊q⌋
    else if 1/2 < q - (⌊q⌋ : ℚ) then ⌊q⌋ + 1
    else if 2 ∣ ⌊q⌋ then ⌊q⌋ else ⌊q⌋ + 1 := by
  unfold pyRound
  rw [ratFloor_eq_floor]

/-- Clamp to [0,1]: models `max(0.0, min(1.0, x))`. -/
def clamp01 (q : ℚ) : ℚ := max 0 (min 1 q)

/-! ## Reader loop (rfid_manager.RFIDManager._read_loop) -/

/-- Simulated outcome of one read attempt in the read loop. -/
inductive ReadOutcome
  | err
  | tag (id : ℕ)
  | noTag
deriving DecidableEq, Repr

/-- Input to one loop iteration: the wall-clock time observed by the
iteration, the simulated read outcome, and whether a reader
(re-)initialization attempted during this iteration succeeds. -/
structure IterInput where
  time : ℚ
  outcome : ReadOutcome
  reinitOk : Bool
deriving DecidableEq, Repr

/-- Observable events of the read loop, in program order. -/
inductive LoopEvent
  | initAttempt
  | readerUnavailableSleep
  | callbackInvoked (id : ℕ)
  | callbackExceptionLogged
  | debounceSleep
  | pollSleep
  | hwResetCycle
  | errorBackoffSleep
deriving DecidableEq, Repr

/-- Mutable state of RFIDManager._read_loop across iterations. -/
structure ReaderLoopState where
  readerPresent : Bool
  consecutiveErrors : ℕ
  lastSuccess : ℚ
deriving DecidableEq, Repr

/-- One iteration of RFIDManager._read_loop (lines 128-193).
`cbRaises id` tells whether the detection callback raises when invoked
with `id`; the exception is caught and logged (lines 167-170).
An error increments consecutive_errors and, once it reaches 3 or the
time since last success exceeds 10 s, performs the hardware
reset-and-reinit cycle and zeroes the counter regardless of the
re-acquisition outcome (lines 179-193). -/
def readIter (cbRaises : ℕ → Bool) (s : ReaderLoopState) (inp : IterInput) :
    ReaderLoopState × List LoopEvent :=
  let (present, initEvents) :=
    if s.readerPresent then (true, ([] : List LoopEvent))
    else (inp.reinitOk, [LoopEvent.initAttempt])
  if present = false then
    ({ s with readerPresent := false }, initEvents ++ [LoopEvent.readerUnavailableSleep])
  else
    match inp.outcome with
    | ReadOutcome.tag id =>
        ({ readerPresent := true, consecutiveErrors := 0, lastSuccess := inp.time },
          initEvents ++ [LoopEvent.callbackInvoked id] ++
            (if cbRaises id then [LoopEvent.callbackExceptionLogged] else []) ++
            [LoopEvent.debounceSleep])
    | ReadOutcome.noTag =>
        ({ s with readerPresent := true }, initEvents ++ [LoopEvent.pollSleep])
    | ReadOutcome.err =>
        let c := s.consecutiveErrors + 1
        if 3 ≤ c ∨ 10 < inp.time - s.lastSuccess then
          ({ readerPresent := inp.reinitOk, consecutiveErrors := 0,
             lastSuccess := s.lastSuccess },
            initEvents ++ [LoopEvent.hwResetCycle, LoopEvent.errorBackoffSleep])
        else
          ({ s with consecutiveErrors := c, readerPresent := true },
            initEvents ++ [LoopEvent.errorBackoffSleep])

/-- Run the read loop over a list of iteration inputs, collecting the
emitted events in order. -/
def runReaderLoop (cbRaises : ℕ → Bool) (s : ReaderLoopState) :
    List IterInput → ReaderLoopState × List LoopEvent
  | [] => (s, [])
  | inp :: rest =>
      let step := readIter cbRaises s inp
      let tail := runReaderLoop cbRaises step.1 rest
      (tail.1, step.2 ++ tail.2)

/-- Loop state at entry of the loop in the Ready state: reader present,
no errors, last success at time 0. -/
def readyState : ReaderLoopState :=
  { readerPresent := true, consecutiveErrors := 0, lastSuccess := 0 }

/-- The C1 scenario: three errors, then tag 42, then no tag, at one
second intervals; `b` is whether the reset-triggered re-acquisition
succeeds. -/
def c1Inputs (b : Bool) : List IterInput :=
  [⟨1, ReadOutcome.err, true⟩, ⟨2, ReadOutcome.err, true⟩,
   ⟨3, ReadOutcome.err, b⟩, ⟨4, ReadOutcome.tag 42, true⟩,
   ⟨5, ReadOutcome.noTag, true⟩]

/-- The C5 scenario: a tag 7 read (whose callback may raise), a quiet
poll, then a tag 9 read. -/
def c5Inputs : List IterInput :=
  [⟨1, ReadOutcome.tag 7, true⟩, ⟨2, ReadOutcome.noTag, true⟩,
   ⟨3, ReadOutcome.tag 9, true⟩]

/-- C1: on reads [error, error, error, tag 42, none] with error
threshold 3, the loop performs exactly one hardware-reset-and-reinit
cycle, during the first three iterations and hence before tag 42 is
reported; the detection callback fires for 42 exactly once, followed by
the debounce sleep; and after the reset cycle the consecutive-error
counter is zero whether or not re-acquisition succeeded (`b`). -/
theorem C1_reader_loop_single_reset_reports_42 (b : Bool) (cbRaises : ℕ → Bool) :
    (runReaderLoop cbRaises readyState ((c1Inputs b).take 3)).2.count
        LoopEvent.hwResetCycle = 1 ∧
    (runReaderLoop cbRaises readyState ((c1Inputs b).take 3)).2.count
        (LoopEvent.callbackInvoked 42) = 0 ∧
    (runReaderLoop cbRaises readyState ((c1Inputs b).take 3)).1.consecutiveErrors = 0 ∧
    (runReaderLoop cbRaises (runReaderLoop cbRaises readyState
        ((c1Inputs b).take 3)).1 ((c1Inputs b).drop 3)).2.count
        LoopEvent.hwResetCycle = 0 ∧
    (runReaderLoop cbRaises (runReaderLoop cbRaises readyState
        ((c1Inputs b).take 3)).1 ((c1Inputs b).drop 3)).2.count
        (LoopEvent.callbackInvoked 42) = 1 ∧
    LoopEvent.debounceSleep ∈ (runReaderLoop cbRaises (runReaderLoop cbRaises
        readyState ((c1Inputs b).take 3)).1 ((c1Inputs b).drop 3)).2 := by
  cases b <;> cases hc : cbRaises 42 <;>
    simp [runReaderLoop, readIter, c1Inputs, readyState, hc] <;> decide

/-- C5: a detection callback that raises on tag 7 is caught and logged,
and the loop keeps polling, so the later read of tag 9 is still
reported to the callback exactly once. -/
theorem C5_callback_exception_does_not_stop_loop (cbRaises : ℕ → Bool)
    (h7 : cbRaises 7 = true) :
    LoopEvent.callbackInvoked 7 ∈ (runReaderLoop cbRaises readyState c5Inputs).2 ∧
    LoopEvent.callbackExceptionLogged ∈
      (runReaderLoop cbRaises readyState c5Inputs).2 ∧
    (runReaderLoop cbRaises readyState c5Inputs).2.count
      (LoopEvent.callbackInvoked 9) = 1 ∧
    LoopEvent.pollSleep ∈ (runReaderLoop cbRaises readyState c5Inputs).2 := by
  cases h9 : cbRaises 9 <;>
    simp [runReaderLoop, readIter, c5Inputs, readyState, h7, h9] <;> decide

/-- Witness for C5 at the concrete callback that raises exactly on 7. -/
theorem C5_callback_exception_witness :
    LoopEvent.callbackInvoked 7 ∈
      (runReaderLoop (fun n => n == 7) readyState c5Inputs).2 ∧
    LoopEvent.callbackExceptionLogged ∈
      (runReaderLoop (fun n => n == 7) readyState c5Inputs).2 ∧
    (runReaderLoop (fun n => n == 7) readyState c5Inputs).2.count
      (LoopEvent.callbackInvoked 9) = 1 ∧
    LoopEvent.pollSleep ∈ (runReaderLoop (fun n => n == 7) readyState c5Inputs).2 :=
  C5_callback_exception_does_not_stop_loop (fun n => n == 7) rfl

/-! ## LED ring: remaining_progress (led_manager.LEDManager.remaining_progress) -/

/-- An RGB color as passed to rpi_ws281x Color(r, g, b). -/
abbrev LedColor := ℕ × ℕ × ℕ

/-- The all-off color Color(0, 0, 0). -/
def black : LedColor := (0, 0, 0)

/-- The lit-pixel count computed by remaining_progress (lines 224-226):
the ratio is clamped to [0,1] and `int(round(count * remain_ratio))`
is taken. -/
def remainLedsOf (ledCount : ℕ) (q : ℚ) : ℤ :=
  pyRound ((ledCount : ℚ) * clamp01 q)

/-- State touched by remaining_progress: the `_last_remain_count`
attribute (absent before the first draw, cleared by the frontend when
stopped), the pixel frame last written, and the number of hardware
show() calls so far. -/
structure RemainState where
  lastRemainCount : Option ℤ
  pixels : List LedColor
  showCount : ℕ
deriving DecidableEq, Repr

/-- LEDManager.remaining_progress (lines 218-257) for a ring with
`ledCount` pixels (`self._led_count`): clamp the ratio, compute the
lit count, return early when it equals `_last_remain_count` or when no
strip is present, otherwise record the count, write the frame (lit
prefix, rest black) and issue a single show(). The under-lock re-check
coincides with the cheap pre-lock check in this sequential model. -/
def remaining_progress (stripPresent : Bool) (ledCount : ℕ) (col : LedColor)
    (s : RemainState) (q : ℚ) : RemainState :=
  let n := remainLedsOf ledCount q
  if s.lastRemainCount = some n then s
  else if stripPresent = false then s
  else
    { lastRemainCount := some n,
      pixels := (List.range ledCount).map
        (fun i : ℕ => if (i : ℤ) < n then col else black),
      showCount := s.showCount + 1 }

/-- The pixel indices written by the drawing loop of remaining_progress
(`for i in range(count)`). -/
def remainWriteIndices (ledCount : ℕ) : List ℕ := List.range ledCount

/-- pyRound returns the floor or the floor plus one. -/
lemma pyRound_eq_floor_or_succ (q : ℚ) :
    pyRound q = ⌊q⌋ ∨ pyRound q = ⌊q⌋ + 1 := by
  rw [pyRound_def_floor]
  split
  · exact Or.inl rfl
  · split
    · exact Or.inr rfl
    · split
      · exact Or.inl rfl
      · exact Or.inr rfl

/-- pyRound of a nonnegative rational is nonnegative. -/
lemma pyRound_nonneg {q : ℚ} (h : 0 ≤ q) : 0 ≤ pyRound q := by
  have hf : 0 ≤ ⌊q⌋ := Int.floor_nonneg.mpr h
  rcases pyRound_eq_floor_or_succ q with he | he <;> rw [he] <;> omega

/-- pyRound of a rational bounded by the integer m is bounded by m. -/
lemma pyRound_le {q : ℚ} {m : ℤ} (h : q ≤ (m : ℚ)) : pyRound q ≤ m := by
  have hf : ⌊q⌋ ≤ m := by
    have := Int.floor_mono h
    simpa using this
  rcases pyRound_eq_floor_or_succ q with he | he
  · rw [he]; exact hf
  · rw [he]
    rcases lt_or_eq_of_le hf with hlt | heq
    · omega
    · exfalso
      -- in the +1 branches the fractional part is at least 1/2, so q > ⌊q⌋ = m ≥ q
      have hq : (⌊q⌋ : ℚ) < q := by
        by_cases hfrac : q - (⌊q⌋ : ℚ) < 1/2
        · rw [pyRound_def_floor, if_pos hfrac] at he
          omega
        · push_neg at hfrac
          linarith
      rw [heq] at hq
      exact absurd h (not_le.mpr hq)

/-- clamp01 stays within [0,1]. -/
lemma clamp01_mem (q : ℚ) : 0 ≤ clamp01 q ∧ clamp01 q ≤ 1 := by
  unfold clamp01
  constructor
  · exact le_max_left 0 _
  · exact max_le (by norm_num) (min_le_left 1 q)

/-- clamp01 is the identity on [0,1]. -/
lemma clamp01_of_mem {q : ℚ} (h0 : 0 ≤ q) (h1 : q ≤ 1) : clamp01 q = q := by
  unfold clamp01
  rw [min_eq_right h1, max_eq_right h0]

/-- The computed lit count is between 0 and the ring size. -/
lemma remainLedsOf_bounds (ledCount : ℕ) (q : ℚ) :
    0 ≤ remainLedsOf ledCount q ∧ remainLedsOf ledCount q ≤ (ledCount : ℤ) := by
  obtain ⟨h0, h1⟩ := clamp01_mem q
  constructor
  · exact pyRound_nonneg (mul_nonneg (by positivity) h0)
  · refine pyRound_le ?_
    push_cast
    calc (ledCount : ℚ) * clamp01 q ≤ (ledCount : ℚ) * 1 :=
          mul_le_mul_of_nonneg_left h1 (by positivity)
      _ = (ledCount : ℚ) := mul_one _

/-- The frame written by remaining_progress is the contiguous lit
prefix of n pixels followed by black. -/
lemma litFrame_eq (count : ℕ) (col : LedColor) (n : ℤ) (h0 : 0 ≤ n)
    (hn : n ≤ (count : ℤ)) :
    (List.range count).map (fun i : ℕ => if (i : ℤ) < n then col else black)
      = List.replicate n.toNat col ++ List.replicate (count - n.toNat) black := by
  have hle : n.toNat ≤ count := by omega
  apply List.ext_getElem
  · simp [hle]
  · intro i h1 h2
    simp only [List.getElem_map, List.getElem_range]
    by_cases hi : i < n.toNat
    · rw [List.getElem_append_left (by simpa using hi)]
      rw [List.getElem_replicate]
      rw [if_pos (by omega)]
    · rw [List.getElem_append_right (by simpa using hi)]
      rw [List.getElem_replicate]
      rw [if_neg (by omega)]

/-- A call whose lit count equals the cached one returns without any
state change. -/
lemma remaining_progress_noop {stripPresent : Bool} {ledCount : ℕ}
    {col : LedColor} {s : RemainState} {q : ℚ}
    (hlast : s.lastRemainCount = some (remainLedsOf ledCount q)) :
    remaining_progress stripPresent ledCount col s q = s := by
  unfold remaining_progress
  rw [if_pos hlast]

/-- With no strip present, remaining_progress never changes the state. -/
lemma remaining_progress_no_strip {ledCount : ℕ} {col : LedColor}
    {s : RemainState} {q : ℚ} :
    remaining_progress false ledCount col s q = s := by
  by_cases h : s.lastRemainCount = some (remainLedsOf ledCount q) <;>
    simp [remaining_progress, h]

/-- A drawing call records the lit count, writes the lit-prefix frame
and performs exactly one show(). -/
lemma remaining_progress_draw {ledCount : ℕ} {col : LedColor}
    {s : RemainState} {q : ℚ}
    (hlast : s.lastRemainCount ≠ some (remainLedsOf ledCount q)) :
    remaining_progress true ledCount col s q =
      { lastRemainCount := some (remainLedsOf ledCount q),
        pixels := (List.range ledCount).map
          (fun i : ℕ => if (i : ℤ) < remainLedsOf ledCount q then col else black),
        showCount := s.showCount + 1 } := by
  unfold remaining_progress
  rw [if_neg hlast]
  rfl

/-- Folding calls whose lit count all equal the cached one leaves the
state untouched. -/
lemma foldl_remaining_progress_noop {stripPresent : Bool} {ledCount : ℕ}
    {col : LedColor} {c : ℤ} :
    ∀ {qs : List ℚ} {s : RemainState},
      s.lastRemainCount = some c →
      (∀ q ∈ qs, remainLedsOf ledCount q = c) →
      qs.foldl (remaining_progress stripPresent ledCount col) s = s
  | [], s, _, _ => rfl
  | q :: rest, s, hlast, hqs => by
      have hq : remainLedsOf ledCount q = c := hqs q (List.mem_cons_self q rest)
      have hstep : remaining_progress stripPresent ledCount col s q = s :=
        remaining_progress_noop (by rw [hq, hlast])
      simp only [List.foldl_cons, hstep]
      exact foldl_remaining_progress_noop hlast
        (fun r hr => hqs r (List.mem_cons_of_mem q hr))

/-- Over any sequence of calls whose ratios all yield the same lit
count, at most one show() happens. -/
lemma foldl_remaining_progress_at_most_one_show (stripPresent : Bool)
    (ledCount : ℕ) (col : LedColor) (c : ℤ) :
    ∀ (qs : List ℚ) (s : RemainState),
      (∀ q ∈ qs, remainLedsOf ledCount q = c) →
      (qs.foldl (remaining_progress stripPresent ledCount col) s).showCount
        ≤ s.showCount + 1
  | [], s, _ => Nat.le_succ _
  | q :: rest, s, hqs => by
      have hq : remainLedsOf ledCount q = c := hqs q (List.mem_cons_self q rest)
      have hrest : ∀ r ∈ rest, remainLedsOf ledCount r = c :=
        fun r hr => hqs r (List.mem_cons_of_mem q hr)
      by_cases hl : s.lastRemainCount = some c
      · rw [foldl_remaining_progress_noop hl hqs]
        exact Nat.le_succ _
      · cases stripPresent with
        | false =>
            simp only [List.foldl_cons, remaining_progress_no_strip]
            exact foldl_remaining_progress_at_most_one_show false ledCount col c
              rest s hrest
        | true =>
            have hdraw := @remaining_progress_draw ledCount col s q
              (by rw [hq]; exact hl)
            simp only [List.foldl_cons, hdraw]
            rw [foldl_remaining_progress_noop (by simp [hq]) hrest]

/-- C2: remaining_progress lights a contiguous prefix of
round(led_count * ratio) pixels (the ratio being clamped first, a
no-op on [0,1]); any sequence of calls whose ratios all round to the
same lit count performs at most one show(); a call rounding to a
different count than the cached one performs exactly one show(); and a
call rounding to the cached count is a complete no-op. -/
theorem C2_remaining_progress_redraw_discipline (ledCount : ℕ) (col : LedColor) :
    (∀ q : ℚ, 0 ≤ q → q ≤ 1 →
      remainLedsOf ledCount q = pyRound ((ledCount : ℚ) * q)) ∧
    (∀ (s : RemainState) (q : ℚ),
      s.lastRemainCount ≠ some (remainLedsOf ledCount q) →
      (remaining_progress true ledCount col s q).pixels
          = List.replicate (remainLedsOf ledCount q).toNat col
              ++ List.replicate (ledCount - (remainLedsOf ledCount q).toNat) black ∧
      (remaining_progress true ledCount col s q).showCount = s.showCount + 1) ∧
    (∀ (stripPresent : Bool) (s : RemainState) (qs : List ℚ) (c : ℤ),
      (∀ q ∈ qs, remainLedsOf ledCount q = c) →
      (qs.foldl (remaining_progress stripPresent ledCount col) s).showCount
        ≤ s.showCount + 1) ∧
    (∀ (stripPresent : Bool) (s : RemainState) (q : ℚ),
      s.lastRemainCount = some (remainLedsOf ledCount q) →
      remaining_progress stripPresent ledCount col s q = s) := by
  refine ⟨?_, ?_, ?_, ?_⟩
  · intro q h0 h1
    unfold remainLedsOf
    rw [clamp01_of_mem h0 h1]
  · intro s q hlast
    rw [remaining_progress_draw hlast]
    refine ⟨?_, rfl⟩
    exact litFrame_eq ledCount col _ (remainLedsOf_bounds ledCount q).1
      (remainLedsOf_bounds ledCount q).2
  · intro stripPresent s qs c hqs
    exact foldl_remaining_progress_at_most_one_show stripPresent ledCount col c
      qs s hqs
  · intro stripPresent s q hlast
    exact remaining_progress_noop hlast

/-- Witness for C2 on a 16-pixel ring with ratio 1/2 (lit count 8). -/
theorem C2_remaining_progress_witness :
    remainLedsOf 16 (1/2) = pyRound ((16 : ℚ) * (1/2)) ∧
    ((remaining_progress true 16 (255, 255, 255)
        ⟨none, [], 0⟩ (1/2)).pixels
      = List.replicate (remainLedsOf 16 (1/2)).toNat (255, 255, 255)
          ++ List.replicate (16 - (remainLedsOf 16 (1/2)).toNat) black ∧
     (remaining_progress true 16 (255, 255, 255)
        ⟨none, [], 0⟩ (1/2)).showCount = (0 : ℕ) + 1) ∧
    (([1/2, 1/2] : List ℚ).foldl (remaining_progress true 16 (255, 255, 255))
        ⟨none, [], 0⟩).showCount ≤ (0 : ℕ) + 1 ∧
    remaining_progress true 16 (255, 255, 255) ⟨some 8, [], 0⟩ (1/2)
      = ⟨some 8, [], 0⟩ :=
  ⟨(C2_remaining_progress_redraw_discipline 16 (255, 255, 255)).1 (1/2)
      (by norm_num) (by norm_num),
   (C2_remaining_progress_redraw_discipline 16 (255, 255, 255)).2.1
      ⟨none, [], 0⟩ (1/2) (by simp),
   (C2_remaining_progress_redraw_discipline 16 (255, 255, 255)).2.2.1
      true ⟨none, [], 0⟩ [1/2, 1/2] (remainLedsOf 16 (1/2))
      (by intro q hq
          simp only [List.mem_cons, List.not_mem_nil, or_false] at hq
          rcases hq with h | h <;> rw [h]),
   (C2_remaining_progress_redraw_discipline 16 (255, 255, 255)).2.2.2
      true ⟨some 8, [], 0⟩ (1/2)
      (by norm_num [remainLedsOf, clamp01, pyRound_def_floor])⟩

/-- C9: the ratio is clamped before the lit count is computed, so for
every rational input the count lies in [0, led_count] and every pixel
index written by the drawing loop is within the ring. -/
theorem C9_remaining_progress_index_safety (ledCount : ℕ) (q : ℚ) :
    0 ≤ remainLedsOf ledCount q ∧
    remainLedsOf ledCount q ≤ (ledCount : ℤ) ∧
    ∀ i ∈ remainWriteIndices ledCount, i < ledCount := by
  refine ⟨(remainLedsOf_bounds ledCount q).1, (remainLedsOf_bounds ledCount q).2, ?_⟩
  intro i hi
  exact List.mem_range.mp hi

/-- Witness for C9 at led_count 16 and the out-of-range ratio 7/2. -/
theorem C9_remaining_progress_index_safety_witness :
    0 ≤ remainLedsOf 16 (7/2) ∧
    remainLedsOf 16 (7/2) ≤ (16 : ℤ) ∧
    (3 ∈ remainWriteIndices 16 ∧ 3 < 16) :=
  ⟨(C9_remaining_progress_index_safety 16 (7/2)).1,
   (C9_remaining_progress_index_safety 16 (7/2)).2.1,
   by decide,
   (C9_remaining_progress_index_safety 16 (7/2)).2.2 3 (by decide)⟩

/-! ## LED ring: standby comet (led_manager.LEDManager.start_standby_comet /
stop_standby_comet) -/

/-- The count returned by LEDManager._get_count (line 144-145): it
probes the attributes `led_count` and `_count`, but the constructor
only ever sets `_led_count`, so both getattr calls yield None and the
fallback 16 is always returned, whatever the configured ring size. -/
def getCountFallback : ℕ := 16

/-- State of the LEDManager touched by the standby comet operations.
`ledCount` is `self._led_count` (the size the PixelStrip was created
with); `pixels` is the strip's buffer, of length `ledCount`;
`standbyStopEventSet` tells whether `self._standby_stop` holds an
Event object (class attribute None until the first start). -/
structure LedMgrState where
  stripPresent : Bool
  ledCount : ℕ
  pixels : List LedColor
  standbyRunning : Bool
  standbyStopEventSet : Bool
  standbyThreads : List (LedColor × ℚ × ℕ)
  showCount : ℕ
deriving DecidableEq, Repr

/-- LEDManager.start_standby_comet (lines 267-314): return if no strip,
return if `_standby_running` is already truthy (before creating the
stop event or the thread), otherwise create the stop event, mark
running and start one animation thread with the given parameters. -/
def start_standby_comet (s : LedMgrState) (col : LedColor) (delay : ℚ)
    (trail : ℕ) : LedMgrState :=
  if s.stripPresent = false then s
  else if s.standbyRunning then s
  else
    { s with
      standbyStopEventSet := true,
      standbyRunning := true,
      standbyThreads := s.standbyThreads ++ [(col, delay, trail)] }

/-- LEDManager.stop_standby_comet (lines 316-335): signal the stop
event when one exists and clear the running flag; then, when a strip
is present, write black to every index in range(_get_count()) — the
hardcoded fallback 16 — and issue one show(). -/
def stop_standby_comet (s : LedMgrState) : LedMgrState :=
  let s1 := if s.standbyStopEventSet then { s with standbyRunning := false } else s
  if s1.stripPresent = false then s1
  else
    { s1 with
      pixels := (List.range getCountFallback).foldl
        (fun px i => px.set i black) s1.pixels,
      showCount := s1.showCount + 1 }

/-- Characterization of the clear loop: index i reads black when
i < n (and in range), and is untouched otherwise. -/
lemma foldl_set_range_getElem (c : LedColor) :
    ∀ (n : ℕ) (px : List LedColor) (i : ℕ),
      ((List.range n).foldl (fun a j => a.set j c) px)[i]?
        = if i < n ∧ i < px.length then some c else px[i]? := by
  intro n
  induction n with
  | zero => intro px i; simp
  | succ m ih =>
      intro px i
      rw [List.range_succ, List.foldl_append]
      simp only [List.foldl_cons, List.foldl_nil]
      have hlen : ((List.range m).foldl (fun a j => a.set j c) px).length
          = px.length := by
        clear ih
        induction m with
        | zero => simp
        | succ k ihk =>
            rw [List.range_succ, List.foldl_append]
            simp [ihk]
      by_cases hi : i = m
      · subst hi
        by_cases hlt : i < px.length
        · rw [List.getElem?_set_self (by rw [hlen]; exact hlt)]
          rw [if_pos ⟨Nat.lt_succ_self i, hlt⟩]
        · rw [List.set_eq_of_length_le (by rw [hlen]; omega)]
          rw [ih px i]
          rw [if_neg (by omega), if_neg (by omega)]
      · rw [List.getElem?_set_ne (fun h => hi h.symm)]
        rw [ih px i]
        by_cases h1 : i < m ∧ i < px.length
        · rw [if_pos h1, if_pos ⟨by omega, h1.2⟩]
        · rw [if_neg h1, if_neg (by omega)]

/-- The clear loop preserves the buffer length. -/
lemma foldl_set_range_length (c : LedColor) (n : ℕ) (px : List LedColor) :
    ((List.range n).foldl (fun a j => a.set j c) px).length = px.length := by
  induction n with
  | zero => simp
  | succ m ih =>
      rw [List.range_succ, List.foldl_append]
      simp [ih]

/-- C4: a second start_standby_comet request is a no-op whenever the
standby animation is already marked running; in particular two
identical requests in a row start at most one animation thread, and
repeating a request changes nothing. -/
theorem C4_start_standby_comet_no_restart (s : LedMgrState) (col : LedColor)
    (delay : ℚ) (trail : ℕ) :
    start_standby_comet (start_standby_comet s col delay trail) col delay trail
      = start_standby_comet s col delay trail ∧
    (start_standby_comet s col delay trail).standbyThreads.length
      ≤ s.standbyThreads.length + 1 ∧
    (s.standbyRunning = true → start_standby_comet s col delay trail = s) := by
  by_cases hstrip : s.stripPresent = false
  · simp [start_standby_comet, hstrip]
  · by_cases hrun : s.standbyRunning
    · simp [start_standby_comet, hstrip, hrun]
    · simp [start_standby_comet, hstrip, hrun]

/-- Witness for C4 at a state already marked running. -/
theorem C4_start_standby_comet_witness :
    start_standby_comet ⟨true, 16, [], true, true, [], 0⟩ (0, 8, 0) 5 2
      = ⟨true, 16, [], true, true, [], 0⟩ :=
  (C4_start_standby_comet_no_restart ⟨true, 16, [], true, true, [], 0⟩
    (0, 8, 0) 5 2).2.2 rfl

/-- A 24-pixel ring showing all white, with no standby animation
running, used to refute the all-off-frame claim. -/
def c10State : LedMgrState :=
  ⟨true, 24, List.replicate 24 (255, 255, 255), false, false, [], 0⟩

/-- C10 counterexample: on a 24-pixel ring, stop_standby_comet does
NOT write an all-off frame — _get_count() falls back to 16 because the
attributes it probes are never set, so pixels 16..23 keep their
color — although it does issue one show(). -/
theorem C10_stop_standby_comet_counterexample :
    (stop_standby_comet c10State).pixels ≠ List.replicate 24 black ∧
    (stop_standby_comet c10State).showCount = 1 := by
  have hpix : (stop_standby_comet c10State).pixels
      = (List.range getCountFallback).foldl
          (fun px i => px.set i black) c10State.pixels := by
    unfold stop_standby_comet c10State
    simp only [Bool.false_eq_true, if_false, Bool.true_eq_false]
  constructor
  · intro h
    have h16 : (stop_standby_comet c10State).pixels[16]? = some (255, 255, 255) := by
      rw [hpix]
      rw [foldl_set_range_getElem]
      rw [if_neg (by simp [getCountFallback])]
      simp [c10State]
    rw [h] at h16
    rw [List.getElem?_replicate, if_pos (by omega)] at h16
    exact absurd (Option.some.inj h16) (by decide)
  · unfold stop_standby_comet c10State
    simp only [Bool.false_eq_true, if_false, Bool.true_eq_false]

/-- C10 amended: whenever a strip is present, every call to
stop_standby_comet — also when no standby animation was running —
writes black to the pixel indices 0..15 (the hardcoded _get_count
fallback of 16, the default ring size) and issues exactly one show();
pixels at indices 16 and beyond are left unchanged. -/
theorem C10_stop_standby_comet_clears_first_16 (s : LedMgrState)
    (hstrip : s.stripPresent = true) :
    (∀ i, i < 16 → i < s.pixels.length →
      (stop_standby_comet s).pixels[i]? = some black) ∧
    (∀ i, 16 ≤ i → (stop_standby_comet s).pixels[i]? = s.pixels[i]?) ∧
    (stop_standby_comet s).showCount = s.showCount + 1 := by
  have key : ∀ i, (stop_standby_comet s).pixels[i]?
      = if i < 16 ∧ i < s.pixels.length then some black else s.pixels[i]? := by
    intro i
    unfold stop_standby_comet
    cases hev : s.standbyStopEventSet <;>
      simp only [hev, Bool.false_eq_true, if_false, if_true, hstrip,
        Bool.true_eq_false] <;>
      exact foldl_set_range_getElem black 16 s.pixels i
  refine ⟨?_, ?_, ?_⟩
  · intro i h16 hlen
    rw [key i, if_pos ⟨h16, hlen⟩]
  · intro i h16
    rw [key i, if_neg (by omega)]
  · unfold stop_standby_comet
    cases hev : s.standbyStopEventSet <;>
      simp only [hev, Bool.false_eq_true, if_false, if_true, hstrip,
        Bool.true_eq_false]

/-- Witness for the amended C10 on the 24-pixel all-white ring. -/
theorem C10_stop_standby_comet_witness :
    (stop_standby_comet c10State).pixels[3]? = some black ∧
    (stop_standby_comet c10State).pixels[20]? = c10State.pixels[20]? ∧
    (stop_standby_comet c10State).showCount = c10State.showCount + 1 :=
  ⟨(C10_stop_standby_comet_clears_first_16 c10State rfl).1 3 (by decide) (by decide),
   (C10_stop_standby_comet_clears_first_16 c10State rfl).2.1 20 (by decide),
   (C10_stop_standby_comet_clears_first_16 c10State rfl).2.2⟩

/-! ## Mappings store (mappings_db.MappingsDB) and frontend merge -/

/-- A row of the mappings table: columns uri and description
(tag is the primary key). -/
structure MappingRow where
  uri : String
  description : String
deriving DecidableEq, Repr

/-- The persisted mappings table, keyed by tag (primary key, so at
most one row per tag; the operations below preserve this). -/
abbrev MappingsTable := List (String × MappingRow)

/-- MappingsDB.get (lines 63-75): SELECT uri, description WHERE tag = ?. -/
def mappingsDB_get (db : MappingsTable) (tag : String) : Option MappingRow :=
  (db.find? (fun r => r.1 == tag)).map (fun r => r.2)

/-- MappingsDB.set (lines 77-87): INSERT OR REPLACE keyed on tag. -/
def mappingsDB_set (db : MappingsTable) (tag uri description : String) :
    MappingsTable :=
  (tag, ⟨uri, description⟩) :: db.filter (fun r => !(r.1 == tag))

/-- MappingsDB.delete (lines 89-101): DELETE WHERE tag = ?, returning
rowcount > 0, i.e. whether a row existed. -/
def mappingsDB_delete (db : MappingsTable) (tag : String) :
    Bool × MappingsTable :=
  (db.any (fun r => r.1 == tag), db.filter (fun r => !(r.1 == tag)))

/-- MappingsDB.list_all (lines 103-114): SELECT tag, uri, description. -/
def mappingsDB_list_all (db : MappingsTable) : MappingsTable := db

/-- The config-supplied fallback table rfid/mappings: tag -> uri. -/
abbrev ConfigMappings := List (String × String)

/-- Lookup in the config fallback: `self._config_mappings.get(tag)`. -/
def configMappings_get (cfg : ConfigMappings) (tag : String) : Option String :=
  (cfg.find? (fun r => r.1 == tag)).map (fun r => r.2)

/-- RFIDFrontend.get_mapping (lines 408-412): the DB row wins when
present (the returned dict is always truthy), otherwise fall back to
the config mappings. -/
def frontend_get_mapping (db : MappingsTable) (cfg : ConfigMappings)
    (tag : String) : Option String :=
  match mappingsDB_get db tag with
  | some m => some m.uri
  | none => configMappings_get cfg tag

/-- RFIDFrontend.list_mappings (lines 420-426): start from
MappingsDB.list_all and add each config mapping whose tag is not
already present. -/
def frontend_list_mappings (db : MappingsTable) (cfg : ConfigMappings) :
    MappingsTable :=
  mappingsDB_list_all db ++ cfg.filterMap
    (fun kv => if (mappingsDB_get db kv.1).isSome then none
               else some (kv.1, ⟨kv.2, ""⟩))

/-- Deleting a tag leaves no row for it. -/
lemma mappingsDB_get_after_delete (db : MappingsTable) (tag : String) :
    mappingsDB_get (mappingsDB_delete db tag).2 tag = none := by
  unfold mappingsDB_get mappingsDB_delete
  have hf : (db.filter (fun r => !(r.1 == tag))).find? (fun r => r.1 == tag)
      = none := by
    apply List.find?_eq_none.mpr
    intro r hr
    have h2 := (List.mem_filter.mp hr).2
    simpa using h2
  rw [hf]
  rfl

lemma mappingsDB_delete_fst (db : MappingsTable) (tag : String) :
    (mappingsDB_delete db tag).1 = (mappingsDB_get db tag).isSome := by
  show db.any (fun r => r.1 == tag)
      = ((db.find? (fun r => r.1 == tag)).map (fun r => r.2)).isSome
  cases hfind : List.find? (fun r => r.1 == tag) db with
  | none =>
      have ha : db.any (fun r => r.1 == tag) = false :=
        List.any_eq_false.mpr (fun r hr => List.find?_eq_none.mp hfind r hr)
      rw [ha]
      simp
  | some r =>
      have hp := List.find?_some hfind
      have ha : db.any (fun r => r.1 == tag) = true :=
        List.any_eq_true.mpr ⟨r, List.mem_of_find?_eq_some hfind, hp⟩
      rw [ha]
      simp

/-- C6: set followed by get round-trips — for every prior table state
(including one already holding an entry for the tag, which the set
overwrites), get returns exactly the uri and description just set. -/
theorem C6_set_get_roundtrip (db : MappingsTable) (tag uri description : String) :
    mappingsDB_get (mappingsDB_set db tag uri description) tag
      = some ⟨uri, description⟩ := by
  unfold mappingsDB_get mappingsDB_set
  rw [List.find?_cons_of_pos _ (by simp)]
  rfl

/-- C7: delete returns true exactly when a persisted row existed (so a
second delete of the same tag returns false), and after the delete a
get through the frontend falls back to the config mapping when one
exists and to None otherwise. -/
theorem C7_delete_semantics (db : MappingsTable) (cfg : ConfigMappings)
    (tag : String) :
    (mappingsDB_delete db tag).1 = (mappingsDB_get db tag).isSome ∧
    (mappingsDB_delete (mappingsDB_delete db tag).2 tag).1 = false ∧
    frontend_get_mapping (mappingsDB_delete db tag).2 cfg tag
      = configMappings_get cfg tag := by
  refine ⟨mappingsDB_delete_fst db tag, ?_, ?_⟩
  · rw [mappingsDB_delete_fst, mappingsDB_get_after_delete]
    rfl
  · unfold frontend_get_mapping
    rw [mappingsDB_get_after_delete]

lemma mappingsDB_get_cons (r : String × MappingRow) (l : MappingsTable) (t : String) :
    mappingsDB_get (r :: l) t
      = if r.1 == t then some r.2 else mappingsDB_get l t := by
  unfold mappingsDB_get
  cases h : (r.1 == t) <;> simp [List.find?_cons, h]

lemma mappingsDB_get_append (l1 l2 : MappingsTable) (t : String) :
    mappingsDB_get (l1 ++ l2) t = (mappingsDB_get l1 t).or (mappingsDB_get l2 t) := by
  induction l1 with
  | nil => rfl
  | cons r rest ih =>
      rw [List.cons_append, mappingsDB_get_cons, mappingsDB_get_cons]
      by_cases h : r.1 == t
      · rw [if_pos h, if_pos h]
        rfl
      · rw [if_neg h, if_neg h, ih]

lemma configMappings_get_cons (kv : String × String) (rest : ConfigMappings)
    (t : String) :
    configMappings_get (kv :: rest) t
      = if kv.1 == t then some kv.2 else configMappings_get rest t := by
  unfold configMappings_get
  cases h : (kv.1 == t) <;> simp [List.find?_cons, h]

lemma mappingsDB_get_config_extras (db : MappingsTable) (t : String)
    (hnone : mappingsDB_get db t = none) :
    ∀ cfg : ConfigMappings,
      mappingsDB_get (cfg.filterMap (fun kv =>
          if (mappingsDB_get db kv.1).isSome then none
          else some (kv.1, (⟨kv.2, ""⟩ : MappingRow)))) t
        = (configMappings_get cfg t).map (fun u => ⟨u, ""⟩)
  | [] => rfl
  | kv :: rest => by
      have hrest := mappingsDB_get_config_extras db t hnone rest
      by_cases hk : kv.1 == t
      · have hkeq : kv.1 = t := by simpa using hk
        have hcond : (mappingsDB_get db kv.1).isSome = false := by
          rw [hkeq, hnone]
          rfl
        simp [List.filterMap_cons, hcond, mappingsDB_get_cons,
          configMappings_get_cons, hk]
      · by_cases hdb : (mappingsDB_get db kv.1).isSome
        · simp [List.filterMap_cons, hdb, configMappings_get_cons, hk, hrest]
        · simp only [Bool.not_eq_true] at hdb
          simp [List.filterMap_cons, hdb, mappingsDB_get_cons,
            configMappings_get_cons, hk, hrest]

/-- C8: list_mappings is the union of the persisted table and the
config fallback, with persisted entries winning on key collision:
looking a tag up in the merged table yields the persisted row when one
exists, the config row (with empty description) when only the config
has the tag, and nothing otherwise. -/
theorem C8_list_mappings_union (db : MappingsTable) (cfg : ConfigMappings)
    (t : String) :
    mappingsDB_get (frontend_list_mappings db cfg) t
      = match mappingsDB_get db t with
        | some m => some m
        | none => (configMappings_get cfg t).map
            (fun u => (⟨u, ""⟩ : MappingRow)) := by
  unfold frontend_list_mappings mappingsDB_list_all
  rw [mappingsDB_get_append]
  cases hdb : mappingsDB_get db t with
  | some m => rfl
  | none =>
      rw [Option.none_or]
      exact mappingsDB_get_config_extras db t hdb cfg

/-! ## Progress updater (frontend.RFIDFrontend._start_progress_updater)
driving the paused sweep -/

/-- Playback state as returned by core.playback.get_state(). -/
inductive PbState
  | playing
  | paused
  | stopped
deriving DecidableEq, Repr

/-- What one updater tick observes from the player: state, position,
and the track length after the mutagen fallback probing (none when no
usable length was obtained). The tick fetches position and length once
per block; this model uses one snapshot for the whole tick. -/
structure Snapshot where
  state : PbState
  posMs : ℕ
  lengthMs : Option ℕ
deriving DecidableEq, Repr

/-- The LED-manager calls a tick can issue, in program order. -/
inductive AnimCall
  | stopStandbyComet
  | startStandbyComet
  | stopPausedSweep
  | startPausedSweep (remain : ℤ)
  | updatePausedRemain (remain : ℤ)
  | remainingProgressCall (q : ℚ)
deriving DecidableEq, Repr

/-- Animator state visible to the updater: the `_standby_running` and
`_paused_running` flags, the paused-sweep remaining count, and how
many times the paused-sweep animation was started (thread starts). -/
structure AnimState where
  standbyRunning : Bool
  pausedRunning : Bool
  pausedRemain : ℤ
  pausedStartCount : ℕ
deriving DecidableEq, Repr

/-- Modelled from the spec: `start_paused_sweep` is called by
frontend.py (lines 297, 351) but missing from src led_manager.py (only
its callers exist). Spec section 4.3: starting the paused sweep marks
it running over the given remaining sub-range and starts its
animation thread. -/
def start_paused_sweep (a : AnimState) (remain : ℤ) : AnimState :=
  { a with
    pausedRunning := true,
    pausedRemain := remain,
    pausedStartCount := a.pausedStartCount + 1 }

/-- Modelled from the spec: `update_paused_remain` is called by
frontend.py (line 354) but missing from src led_manager.py. Spec
section 4.3: it updates the remaining count without restarting the
whole animation, so the running flag and the thread count are
untouched. -/
def update_paused_remain (a : AnimState) (remain : ℤ) : AnimState :=
  { a with pausedRemain := remain }

/-- Modelled from the spec: `stop_paused_sweep` is called by
frontend.py (lines 241, 305) but missing from src led_manager.py:
stops the paused sweep. -/
def stop_paused_sweep (a : AnimState) : AnimState :=
  { a with pausedRunning := false }

/-- Effect of one animator call on the animator flags.
stop_standby_comet clears the running flag (led_manager lines
316-323); start_standby_comet returns early when already running
(lines 275-276). -/
def applyAnimCall (a : AnimState) : AnimCall → AnimState
  | AnimCall.stopStandbyComet => { a with standbyRunning := false }
  | AnimCall.startStandbyComet =>
      if a.standbyRunning then a else { a with standbyRunning := true }
  | AnimCall.stopPausedSweep => stop_paused_sweep a
  | AnimCall.startPausedSweep n => start_paused_sweep a n
  | AnimCall.updatePausedRemain n => update_paused_remain a n
  | AnimCall.remainingProgressCall _ => a

/-- The remaining ratio computed by the updater (frontend lines 264,
295, 338): max(0.0, min(1.0, 1.0 - pos_ms / float(length_ms))). -/
def remainFraction (posMs lengthMs : ℕ) : ℚ :=
  max 0 (min 1 (1 - (posMs : ℚ) / (lengthMs : ℚ)))

/-- The remain_leds count pushed to the paused sweep (frontend lines
296, 339): int(round(led_count * remain_ratio)). -/
def tickRemainLeds (ledCount posMs lengthMs : ℕ) : ℤ :=
  pyRound ((ledCount : ℚ) * remainFraction posMs lengthMs)

/-- One iteration of the updater loop body (frontend lines 210-362)
with the LED ring enabled and the core reachable: the defensive
standby stop while playing/paused (lines 220-224), the state-change
block (lines 227-316), and the per-tick remaining-time block (lines
319-356). The stopped-state cache clearing (lines 357-361) only
touches remaining_progress state and is not represented here.
Returns the new last_state, the animator state after the issued calls,
and the calls in order. -/
def progressTick (ledCount : ℕ) (cfgRemaining : Bool)
    (last : Option PbState) (a : AnimState) (obs : Snapshot) :
    Option PbState × AnimState × List AnimCall :=
  let calls0 : List AnimCall :=
    if obs.state = PbState.playing ∨ obs.state = PbState.paused then
      [AnimCall.stopStandbyComet]
    else []
  let callsChange : List AnimCall :=
    if last = some obs.state then []
    else
      match obs.state with
      | PbState.playing =>
          [AnimCall.stopStandbyComet, AnimCall.stopPausedSweep] ++
            (if cfgRemaining then
              match obs.lengthMs with
              | some L =>
                  if 0 < L then
                    [AnimCall.remainingProgressCall (remainFraction obs.posMs L)]
                  else []
              | none => []
            else [])
      | PbState.paused =>
          [AnimCall.stopStandbyComet] ++
            (if cfgRemaining then
              match obs.lengthMs with
              | some L =>
                  if 0 < L then
                    [AnimCall.startPausedSweep (tickRemainLeds ledCount obs.posMs L)]
                  else []
              | none => []
            else [])
      | PbState.stopped =>
          [AnimCall.stopPausedSweep, AnimCall.startStandbyComet]
  let last1 := if last = some obs.state then last else some obs.state
  let a1 := (calls0 ++ callsChange).foldl applyAnimCall a
  let callsTick : List AnimCall :=
    if (obs.state = PbState.playing ∨ obs.state = PbState.paused)
        ∧ cfgRemaining = true then
      match obs.lengthMs with
      | some L =>
          if 0 < L then
            match obs.state with
            | PbState.playing =>
                [AnimCall.remainingProgressCall (remainFraction obs.posMs L)]
            | PbState.paused =>
                (if a1.pausedRunning then []
                 else [AnimCall.startPausedSweep (tickRemainLeds ledCount obs.posMs L)]) ++
                [AnimCall.updatePausedRemain (tickRemainLeds ledCount obs.posMs L)]
            | PbState.stopped => []
          else []
      | none => []
    else []
  (last1, callsTick.foldl applyAnimCall a1, calls0 ++ callsChange ++ callsTick)

/-- C3: when a tick observes the state change to paused with a known
position and positive length, it stops the standby comet and starts
the paused sweep exactly once over the remaining lit count, leaving
the sweep running with that count; and on every later tick still
paused it pushes the new count via update_paused_remain without any
startPausedSweep call and without a new thread start. -/
theorem C3_paused_sweep_transition_and_ticks :
    (∀ (ledCount : ℕ) (last : Option PbState) (a : AnimState) (posMs L : ℕ),
      last ≠ some PbState.paused → 0 < L →
      AnimCall.stopStandbyComet ∈
        (progressTick ledCount true last a ⟨PbState.paused, posMs, some L⟩).2.2 ∧
      (progressTick ledCount true last a ⟨PbState.paused, posMs, some L⟩).2.2.count
        (AnimCall.startPausedSweep (tickRemainLeds ledCount posMs L)) = 1 ∧
      (progressTick ledCount true last a
        ⟨PbState.paused, posMs, some L⟩).2.1.pausedRunning = true ∧
      (progressTick ledCount true last a
        ⟨PbState.paused, posMs, some L⟩).2.1.pausedRemain
        = tickRemainLeds ledCount posMs L ∧
      (progressTick ledCount true last a
        ⟨PbState.paused, posMs, some L⟩).2.1.standbyRunning = false ∧
      (progressTick ledCount true last a
        ⟨PbState.paused, posMs, some L⟩).1 = some PbState.paused) ∧
    (∀ (ledCount : ℕ) (a : AnimState) (posMs L : ℕ),
      a.pausedRunning = true → 0 < L →
      AnimCall.updatePausedRemain (tickRemainLeds ledCount posMs L) ∈
        (progressTick ledCount true (some PbState.paused) a
          ⟨PbState.paused, posMs, some L⟩).2.2 ∧
      (∀ m, AnimCall.startPausedSweep m ∉
        (progressTick ledCount true (some PbState.paused) a
          ⟨PbState.paused, posMs, some L⟩).2.2) ∧
      (progressTick ledCount true (some PbState.paused) a
          ⟨PbState.paused, posMs, some L⟩).2.1.pausedStartCount
        = a.pausedStartCount ∧
      (progressTick ledCount true (some PbState.paused) a
          ⟨PbState.paused, posMs, some L⟩).2.1.pausedRemain
        = tickRemainLeds ledCount posMs L ∧
      (progressTick ledCount true (some PbState.paused) a
          ⟨PbState.paused, posMs, some L⟩).2.1.pausedRunning = true) := by
  constructor
  · intro ledCount last a posMs L hlast hL
    simp [progressTick, applyAnimCall, start_paused_sweep, update_paused_remain,
      stop_paused_sweep, hlast, hL]
  · intro ledCount a posMs L hrun hL
    simp [progressTick, applyAnimCall, start_paused_sweep, update_paused_remain,
      stop_paused_sweep, hrun, hL]

/-- Witness for C3: a stopped-to-paused transition at 30 s of a 60 s
track on a 16-pixel ring, then a later paused tick at 45 s. -/
theorem C3_paused_sweep_witness :
    (AnimCall.stopStandbyComet ∈ (progressTick 16 true (some PbState.stopped)
        ⟨true, false, 0, 0⟩ ⟨PbState.paused, 30000, some 60000⟩).2.2 ∧
      (progressTick 16 true (some PbState.stopped) ⟨true, false, 0, 0⟩
          ⟨PbState.paused, 30000, some 60000⟩).2.2.count
        (AnimCall.startPausedSweep (tickRemainLeds 16 30000 60000)) = 1 ∧
      (progressTick 16 true (some PbState.stopped) ⟨true, false, 0, 0⟩
          ⟨PbState.paused, 30000, some 60000⟩).2.1.pausedRunning = true ∧
      (progressTick 16 true (some PbState.stopped) ⟨true, false, 0, 0⟩
          ⟨PbState.paused, 30000, some 60000⟩).2.1.pausedRemain
        = tickRemainLeds 16 30000 60000 ∧
      (progressTick 16 true (some PbState.stopped) ⟨true, false, 0, 0⟩
          ⟨PbState.paused, 30000, some 60000⟩).2.1.standbyRunning = false ∧
      (progressTick 16 true (some PbState.stopped) ⟨true, false, 0, 0⟩
          ⟨PbState.paused, 30000, some 60000⟩).1 = some PbState.paused) ∧
    (AnimCall.updatePausedRemain (tickRemainLeds 16 45000 60000) ∈
        (progressTick 16 true (some PbState.paused) ⟨false, true, 8, 1⟩
          ⟨PbState.paused, 45000, some 60000⟩).2.2 ∧
      (∀ m, AnimCall.startPausedSweep m ∉
        (progressTick 16 true (some PbState.paused) ⟨false, true, 8, 1⟩
          ⟨PbState.paused, 45000, some 60000⟩).2.2) ∧
      (progressTick 16 true (some PbState.paused) ⟨false, true, 8, 1⟩
          ⟨PbState.paused, 45000, some 60000⟩).2.1.pausedStartCount
        = (⟨false, true, 8, 1⟩ : AnimState).pausedStartCount ∧
      (progressTick 16 true (some PbState.paused) ⟨false, true, 8, 1⟩
          ⟨PbState.paused, 45000, some 60000⟩).2.1.pausedRemain
        = tickRemainLeds 16 45000 60000 ∧
      (progressTick 16 true (some PbState.paused) ⟨false, true, 8, 1⟩
          ⟨PbState.paused, 45000, some 60000⟩).2.1.pausedRunning = true) :=
  ⟨C3_paused_sweep_transition_and_ticks.1 16 (some PbState.stopped)
      ⟨true, false, 0, 0⟩ 30000 60000 (by decide) (by decide),
   C3_paused_sweep_transition_and_ticks.2 16 ⟨false, true, 8, 1⟩
      45000 60000 rfl (by decide)⟩
